import Mathlib

/-!
Verification of the httpstodns request-translation core of the dnss
repository (src/internal/httpstodns/server.go).  Go strings are modelled
as Lean strings with one `Char` per byte (all inputs of interest are
ASCII); Go byte slices (`net.IP`, `net.IPMask`) are lists of naturals
below 256; fallible Go calls return `Option`/`Except`.
-/

set_option maxRecDepth 4000

namespace Dnss

/-! ### Model of the Go standard library `net` address parsing
The repository calls `net.ParseCIDR`; these definitions model the Go
standard library functions it relies on (`dtoi`, `xtoi`, `parseIPv4`,
`parseIPv6`, `CIDRMask`, `IPMask.Size`, `IP.Mask`, `IP.To4`). -/

/-- Overflow threshold `big = 0xFFFFFF` used by Go's `dtoi` and `xtoi`. -/
def bigNum : Nat := 0xFFFFFF

/-- Models Go `dtoi`: parse a decimal prefix, returning the value, the
number of characters consumed, and an ok flag (false on overflow or when
no digit was consumed). -/
def dtoiGo : List Char → Nat → Nat → Nat × Nat × Bool
  | [], n, i => (n, i, i != 0)
  | c :: cs, n, i =>
    if c.isDigit then
      let m := n * 10 + (c.toNat - 48)
      if bigNum ≤ m then (bigNum, i, false) else dtoiGo cs m (i + 1)
    else (n, i, i != 0)

/-- Hexadecimal digit value, if any. -/
def hexDigitVal (c : Char) : Option Nat :=
  if 48 ≤ c.toNat ∧ c.toNat ≤ 57 then some (c.toNat - 48)
  else if 97 ≤ c.toNat ∧ c.toNat ≤ 102 then some (c.toNat - 87)
  else if 65 ≤ c.toNat ∧ c.toNat ≤ 70 then some (c.toNat - 55)
  else none

/-- Models Go `xtoi`: parse a hexadecimal prefix. -/
def xtoiGo : List Char → Nat → Nat → Nat × Nat × Bool
  | [], n, i => (n, i, i != 0)
  | c :: cs, n, i =>
    match hexDigitVal c with
    | none => (n, i, i != 0)
    | some d =>
      let m := n * 16 + d
      if bigNum ≤ m then (0, i, false) else xtoiGo cs m (i + 1)

/-- The 12-byte head that Go's `IPv4()` constructor places before the four
address bytes (ten zero bytes then two 0xff bytes). -/
def v4InV6Head : List Nat := [0, 0, 0, 0, 0, 0, 0, 0, 0, 0, 255, 255]

/-- One dotted-decimal octet: value in 0..255, no leading zeros. -/
def parseV4Octet (s : List Char) : Option (Nat × List Char) :=
  let r := dtoiGo s 0 0
  if r.2.2 = false then none
  else if 255 < r.1 then none
  else if 1 < r.2.1 ∧ s.head? = some '0' then none
  else some (r.1, s.drop r.2.1)

/-- The remaining `k` octets of a dotted quad, each preceded by a dot. -/
def parseV4Rest : Nat → List Char → Option (List Nat)
  | 0, s => if s.isEmpty then some [] else none
  | k + 1, s =>
    match s with
    | '.' :: s2 =>
      match parseV4Octet s2 with
      | none => none
      | some (n, s3) => (parseV4Rest k s3).map (fun r => n :: r)
    | _ => none

/-- Models Go `parseIPv4`; like Go's `IPv4()` constructor it yields the
16-byte IPv4-in-IPv6 representation. -/
def parseIPv4Go (s : List Char) : Option (List Nat) :=
  match parseV4Octet s with
  | none => none
  | some (n, s2) => (parseV4Rest 3 s2).map (fun r => v4InV6Head ++ n :: r)

/-- The post-loop bookkeeping of Go `parseIPv6`: leftover characters are an
error; a short address needs an ellipsis and is expanded with zero bytes at
the ellipsis position; a full address must not also have an ellipsis. -/
def parseIPv6Finish (s : List Char) (i : Nat) (acc : List Nat)
    (ellipsis : Option Nat) : Option (List Nat) :=
  if s.isEmpty = false then none
  else if i < 16 then
    match ellipsis with
    | none => none
    | some e => some (acc.take e ++ List.replicate (16 - i) 0 ++ acc.drop e)
  else
    match ellipsis with
    | some _ => none
    | none => some acc

/-- The main loop of Go `parseIPv6`: `i` counts address bytes produced so
far (held in `acc`), `ellipsis` the byte position of a `::` if seen. -/
def parseIPv6Loop : Nat → List Char → Nat → List Nat → Option Nat → Option (List Nat)
  | 0, _, _, _, _ => none
  | fuel + 1, s, i, acc, ellipsis =>
    if 16 ≤ i then parseIPv6Finish s i acc ellipsis
    else
      let r := xtoiGo s 0 0
      if r.2.2 = false ∨ 0xFFFF < r.1 then none
      else
        let rest := s.drop r.2.1
        if rest.head? = some '.' then
          if ellipsis = none ∧ i ≠ 12 then none
          else if 16 < i + 4 then none
          else
            match parseIPv4Go s with
            | none => none
            | some ip4 => parseIPv6Finish [] (i + 4) (acc ++ ip4.drop 12) ellipsis
        else
          let acc2 := acc ++ [r.1 / 256, r.1 % 256]
          match rest with
          | [] => parseIPv6Finish [] (i + 2) acc2 ellipsis
          | [':'] => none
          | ':' :: ':' :: s2 =>
            if ellipsis.isSome then none
            else if s2.isEmpty then parseIPv6Finish [] (i + 2) acc2 (some (i + 2))
            else parseIPv6Loop fuel s2 (i + 2) acc2 (some (i + 2))
          | ':' :: s2 => parseIPv6Loop fuel s2 (i + 2) acc2 ellipsis
          | _ => none

/-- Models Go `parseIPv6` (leading `::` handled up front as in Go). -/
def parseIPv6Go (s : List Char) : Option (List Nat) :=
  match s with
  | ':' :: ':' :: rest =>
    if rest.isEmpty then some (List.replicate 16 0)
    else parseIPv6Loop (rest.length + 1) rest 0 [] (some 0)
  | _ => parseIPv6Loop (s.length + 1) s 0 [] none

/-- Models Go `parseIPv6Zone`: a zone suffix after `%` is split off and
ignored for the address bytes. -/
def parseIPv6ZoneGo (s : List Char) : Option (List Nat) :=
  parseIPv6Go (s.takeWhile (fun c => c != '%'))

/-- Byte with the top `k` bits set (`k ≤ 8`). -/
def maskByte (k : Nat) : Nat := 256 - 2 ^ (8 - k)

/-- Models Go `net.CIDRMask ones bits` for `ones ≤ bits` (the only way the
repository reaches it, via `ParseCIDR`). -/
def cidrMask (ones bits : Nat) : List Nat :=
  (List.range (bits / 8)).map (fun j => maskByte (min 8 (ones - j * 8)))

/-- Count the leading one bits of a byte, returning the count and the
residue left after shifting them out (Go shifts a byte left). -/
def countLeadingOnes : Nat → Nat → Nat × Nat
  | 0, v => (0, v)
  | fuel + 1, v =>
    if 128 ≤ v then
      let r := countLeadingOnes fuel ((v * 2) % 256)
      (r.1 + 1, r.2)
    else (0, v)

/-- Models Go `simpleMaskLength`: the prefix length of a canonical mask,
or `none` when the mask is not ones followed by zeros. -/
def simpleMaskLength : List Nat → Option Nat
  | [] => some 0
  | v :: rest =>
    if v = 255 then (simpleMaskLength rest).map (fun n => n + 8)
    else
      let r := countLeadingOnes 8 v
      if r.2 ≠ 0 then none
      else if rest.all (fun b => b == 0) then some r.1 else none

/-- Models Go `IPMask.Size`, returning (leading ones, total bits), or
(0, 0) for a non-canonical mask. -/
def maskSizeGo (m : List Nat) : Nat × Nat :=
  match simpleMaskLength m with
  | none => (0, 0)
  | some n => (n, m.length * 8)

/-- Models Go `IP.Mask`: after reconciling 4-byte and 16-byte forms, the
bytewise AND of address and mask (`none` models Go's nil result). -/
def ipMask (ip mask : List Nat) : Option (List Nat) :=
  let mask2 :=
    if mask.length = 16 ∧ ip.length = 4 ∧ (mask.take 12).all (fun b => b == 255)
    then mask.drop 12 else mask
  let ip2 :=
    if mask2.length = 4 ∧ ip.length = 16 ∧ ip.take 12 = v4InV6Head
    then ip.drop 12 else ip
  if ip2.length = mask2.length then some (List.zipWith Nat.land ip2 mask2) else none

/-- Models Go `IP.To4`: the 4-byte form of an address, when it has one. -/
def ipTo4 (ip : List Nat) : Option (List Nat) :=
  if ip.length = 4 then some ip
  else if ip.length = 16 ∧ ip.take 12 = v4InV6Head then some (ip.drop 12)
  else none

/-- An (address, mask) pair as returned by `net.ParseCIDR`; the stored
address is the masked network address. -/
structure IPNet where
  ip : List Nat
  mask : List Nat
deriving DecidableEq, Repr

/-- The tail of `net.ParseCIDR` once the address bytes and their length
class (4 or 16) are known: the prefix length must be all of the text after
the slash and at most `8 * iplen`; the stored address is `ip.Mask(m)`. -/
def parseCIDRFinish (ip : List Nat) (iplen : Nat) (maskStr : List Char) : Option IPNet :=
  let r := dtoiGo maskStr 0 0
  if r.2.2 = false ∨ r.2.1 ≠ maskStr.length ∨ 8 * iplen < r.1 then none
  else
    match ipMask ip (cidrMask r.1 (8 * iplen)) with
    | none => none
    | some network => some ⟨network, cidrMask r.1 (8 * iplen)⟩

/-- Models `net.ParseCIDR`; the repository keeps only the `*net.IPNet`
result.  The address part before the first slash is tried as IPv4 (length
class 4) and then as IPv6 (length class 16), exactly as in Go. -/
def parseCIDR (s : String) : Option IPNet :=
  let cs := s.toList
  if cs.contains '/' then
    let addr := cs.takeWhile (fun c => c != '/')
    let maskStr := (cs.dropWhile (fun c => c != '/')).tail
    match parseIPv4Go addr with
    | some ip => parseCIDRFinish ip 4 maskStr
    | none =>
      match parseIPv6ZoneGo addr with
      | some ip => parseCIDRFinish ip 16 maskStr
      | none => none
  else none

/-! ### Query parsing (parseQuery, stringToRRType, stringToBool) -/

/-- ASCII uppercase of one character (Go strings.ToUpper acts per rune;
all inputs of interest are ASCII). -/
def upChar (c : Char) : Char :=
  if 97 ≤ c.toNat ∧ c.toNat ≤ 122 then Char.ofNat (c.toNat - 32) else c

/-- Models `strings.ToUpper` on ASCII strings. -/
def toUpperGo (s : String) : String := String.mk (s.toList.map upChar)

/-- ASCII lowercase of one character. -/
def lowChar (c : Char) : Char :=
  if 65 ≤ c.toNat ∧ c.toNat ≤ 90 then Char.ofNat (c.toNat + 32) else c

/-- Models `strings.ToLower` on ASCII strings. -/
def toLowerGo (s : String) : String := String.mk (s.toList.map lowChar)

/-- The six sentinel errors of server.go (lines 169-176). -/
inductive QErr where
  | emptyName | nameTooLong | invalidSubnet | intOutOfRange | unknownType | invalidCD
deriving DecidableEq, Repr

/-- The message text of each sentinel error value. -/
def errMsg : QErr → String
  | .emptyName => "empty name"
  | .nameTooLong => "name too long"
  | .invalidSubnet => "invalid edns_client_subnet"
  | .intOutOfRange => "invalid type (int out of range)"
  | .unknownType => "invalid type (unknown string type)"
  | .invalidCD => "invalid cd value"

/-- The `query` struct of server.go (lines 156-163). -/
structure Query where
  name : String
  rrType : Nat
  cd : Bool
  clientSubnet : Option IPNet
deriving DecidableEq, Repr

/-- Models `strconv.ParseInt(s, 10, 16)`: an optional sign followed by
decimal digits, and the value must fit in a signed 16-bit integer;
`none` models a non-nil error (syntax or range). -/
def goParseInt16 (s : String) : Option Int :=
  let cs := s.toList
  let sd : Bool × List Char :=
    match cs with
    | '+' :: rest => (false, rest)
    | '-' :: rest => (true, rest)
    | _ => (false, cs)
  if sd.2.isEmpty then none
  else if sd.2.all (fun c => c.isDigit) then
    let n : Nat := sd.2.foldl (fun a c => a * 10 + (c.toNat - 48)) 0
    let v : Int := if sd.1 then -(n : Int) else (n : Int)
    if -32768 ≤ v ∧ v ≤ 32767 then some v else none
  else none

/-- Models the `StringToType` table of the external DNS library
(github.com/miekg/dns), mapping canonical record-type names to codes. -/
def dnsStringToType : List (String × Nat) :=
  [("None", 0), ("A", 1), ("NS", 2), ("MD", 3), ("MF", 4), ("CNAME", 5),
   ("SOA", 6), ("MB", 7), ("MG", 8), ("MR", 9), ("NULL", 10), ("PTR", 12),
   ("HINFO", 13), ("MINFO", 14), ("MX", 15), ("TXT", 16), ("RP", 17),
   ("AFSDB", 18), ("X25", 19), ("ISDN", 20), ("RT", 21), ("NSAPPTR", 23),
   ("SIG", 24), ("KEY", 25), ("PX", 26), ("GPOS", 27), ("AAAA", 28),
   ("LOC", 29), ("NXT", 30), ("EID", 31), ("NIMLOC", 32), ("SRV", 33),
   ("ATMA", 34), ("NAPTR", 35), ("KX", 36), ("CERT", 37), ("DNAME", 39),
   ("OPT", 41), ("APL", 42), ("DS", 43), ("SSHFP", 44), ("IPSECKEY", 45),
   ("RRSIG", 46), ("NSEC", 47), ("DNSKEY", 48), ("DHCID", 49),
   ("NSEC3", 50), ("NSEC3PARAM", 51), ("TLSA", 52), ("SMIMEA", 53),
   ("HIP", 55), ("NINFO", 56), ("RKEY", 57), ("TALINK", 58), ("CDS", 59),
   ("CDNSKEY", 60), ("OPENPGPKEY", 61), ("CSYNC", 62), ("ZONEMD", 63),
   ("SVCB", 64), ("HTTPS", 65), ("SPF", 99), ("UINFO", 100), ("UID", 101),
   ("GID", 102), ("UNSPEC", 103), ("NID", 104), ("L32", 105), ("L64", 106),
   ("LP", 107), ("EUI48", 108), ("EUI64", 109), ("TKEY", 249),
   ("TSIG", 250), ("IXFR", 251), ("AXFR", 252), ("MAILB", 253),
   ("MAILA", 254), ("ANY", 255), ("URI", 256), ("CAA", 257), ("AVC", 258),
   ("TA", 32768), ("DLV", 32769)]

/-- `stringToRRType` of server.go (lines 232-246): try a 16-bit decimal
parse first, then the case-insensitive type-name table. -/
def stringToRRType (s : String) : Except QErr Nat :=
  match goParseInt16 s with
  | some i => if 1 ≤ i ∧ i ≤ 65535 then .ok i.toNat else .error .intOutOfRange
  | none =>
    match (dnsStringToType.find? (fun p => p.1 == toUpperGo s)).map (fun p => p.2) with
    | some t => .ok t
    | none => .error .unknownType

/-- `stringToBool` of server.go (lines 248-259). -/
def stringToBool (s : String) : Except QErr Bool :=
  if toLowerGo s = "" ∨ toLowerGo s = "1" ∨ toLowerGo s = "true" then .ok true
  else if toLowerGo s = "0" ∨ toLowerGo s = "false" then .ok false
  else .error .invalidCD

/-- The first-value simplification loop of parseQuery (lines 186-194)
followed by a map lookup: a key present with an empty value list maps to
the empty string, otherwise to its first value. -/
def getParam (values : List (String × List String)) (k : String) : Option String :=
  ((values.map (fun kv => (kv.1, kv.2.headD ""))).find? (fun p => p.1 == k)).map
    (fun p => p.2)

/-- `parseQuery` of server.go (lines 178-227); the input is the url.Values
map (each key with its list of values). -/
def parseQuery (values : List (String × List String)) : Except QErr Query :=
  match getParam values "name" with
  | none => .error .emptyName
  | some name =>
    if name = "" then .error .emptyName
    else if 253 < name.length then .error .nameTooLong
    else
      let step2 : Except QErr Nat :=
        match getParam values "type" with
        | none => .ok 1
        | some t => stringToRRType t
      match step2 with
      | .error e => .error e
      | .ok rrType =>
        let step3 : Except QErr Bool :=
          match getParam values "cd" with
          | none => .ok false
          | some c => stringToBool c
        match step3 with
        | .error e => .error e
        | .ok cd =>
          match getParam values "edns_client_subnet" with
          | none => .ok ⟨name, rrType, cd, none⟩
          | some sub =>
            match parseCIDR sub with
            | none => .error .invalidSubnet
            | some ipnet => .ok ⟨name, rrType, cd, some ipnet⟩

/-- All values appearing under key `k` in the raw query pairs, in order;
this is what Go's `url.ParseQuery` accumulates for a repeated key. -/
def valuesFor (pairs : List (String × String)) (k : String) : List String :=
  (pairs.filter (fun p => p.1 == k)).map (fun p => p.2)

/-- Keys not yet in `seen`, in order of first occurrence, without
duplicates. -/
def dedupKeysFirstAux (seen : List String) : List String → List String
  | [] => []
  | k :: ks =>
    if k ∈ seen then dedupKeysFirstAux seen ks
    else k :: dedupKeysFirstAux (k :: seen) ks

/-- Keys in order of first occurrence, without duplicates. -/
def dedupKeysFirst (l : List String) : List String := dedupKeysFirstAux [] l

/-- Models the url.Values map produced by `u.Query()`: the raw query
pairs grouped by key. -/
def urlQueryValues (pairs : List (String × String)) : List (String × List String) :=
  (dedupKeysFirst (pairs.map (fun p => p.1))).map (fun k => (k, valuesFor pairs k))

/-! ### DNS request construction (Resolve, lines 71-95) -/

/-- DNS OPT record-type code. -/
def typeOPT : Nat := 41

/-- DNS class IN. -/
def classINET : Nat := 1

/-- EDNS0 client-subnet option code. -/
def ednsSubnetCode : Nat := 8

/-- The EDNS0 client-subnet option as populated by Resolve. -/
structure EDNS0Subnet where
  code : Nat
  family : Nat
  address : List Nat
  sourceScope : Nat
  sourceNetmask : Nat
deriving DecidableEq, Repr

/-- The OPT pseudo-record Resolve appends to the request's extra section. -/
structure OPTRecord where
  hdrName : String
  hdrRrtype : Nat
  options : List EDNS0Subnet
deriving DecidableEq, Repr

/-- A DNS question (name, type, class). -/
structure DNSQuestion where
  qname : String
  qtype : Nat
  qclass : Nat
deriving DecidableEq, Repr

/-- The outgoing DNS message as Resolve populates it. -/
structure DNSRequest where
  checkingDisabled : Bool
  recursionDesired : Bool
  question : List DNSQuestion
  extra : List OPTRecord
deriving DecidableEq, Repr

/-- Models `dns.IsFqdn` of the external DNS library: ends in an unescaped
dot (an even number of backslashes before the final dot). -/
def isFqdn (s : String) : Bool :=
  let cs := s.toList
  match cs.getLast? with
  | some '.' => (cs.dropLast.reverse.takeWhile (fun c => c == '\\')).length % 2 == 0
  | _ => false

/-- Models `dns.Fqdn` of the external DNS library. -/
def fqdn (s : String) : String := if isFqdn s then s else s ++ "."

/-- The DNS request construction of Resolve (lines 71-95): checking
disabled copied from the query, `SetQuestion` with the fully-qualified
name (which also sets recursion desired), and, when a client subnet is
present, one OPT record carrying one EDNS0 client-subnet option.  Note
that line 90 takes the second component of `Mask.Size()` (the total bit
count), converted to uint8. -/
def buildRequest (q : Query) : DNSRequest :=
  let base : DNSRequest :=
    { checkingDisabled := q.cd
      recursionDesired := true
      question := [⟨fqdn q.name, q.rrType, classINET⟩]
      extra := [] }
  match q.clientSubnet with
  | none => base
  | some sn =>
    let fa : Nat × List Nat :=
      match ipTo4 sn.ip with
      | some ip4 => (1, ip4)
      | none => (2, sn.ip)
    let e : EDNS0Subnet :=
      { code := ednsSubnetCode
        family := fa.1
        address := fa.2
        sourceScope := 0
        sourceNetmask := (maskSizeGo sn.mask).2 % 256 }
    { base with extra := [{ hdrName := ".", hdrRrtype := typeOPT, options := [e] }] }

/-! ### Reply mapping and the Resolve handler -/

/-- An answer resource record of the upstream reply: the header fields the
mapper reads, plus the textual renderings `Header().String()` and
`String()` produced by the external DNS library. -/
structure GoRR where
  hdrName : String
  hdrRrtype : Nat
  hdrTtl : Nat
  hdrText : List Char
  fullText : List Char
deriving DecidableEq, Repr

/-- The upstream DNS reply fields read by Resolve. -/
structure DNSReply where
  rcode : Nat
  truncated : Bool
  recursionDesired : Bool
  recursionAvailable : Bool
  authenticatedData : Bool
  checkingDisabled : Bool
  question : List DNSQuestion
  answer : List GoRR
deriving DecidableEq, Repr

/-- One record of the JSON reply (dnsjson.RR: Name, Type, TTL, Data). -/
structure JRR where
  rname : String
  rrtype : Nat
  ttl : Nat
  data : List Char
deriving DecidableEq, Repr

/-- Modelled from the spec: the dnsjson.Response shape (internal/dnsjson
is not under src/) — Status, TC, RD, RA, AD, CD, Question, Answer fields
as described in sections 3 and 6 of the design document. -/
structure Response where
  status : Nat
  tc : Bool
  rd : Bool
  ra : Bool
  ad : Bool
  cd : Bool
  question : List JRR
  answer : List JRR
deriving DecidableEq, Repr

/-- The reply-to-JSON mapping of Resolve (lines 116-144): header flags
copied, question and answer sections mapped in order, and each answer's
Data set to `a.String()` with the first `len(hdr.String())` bytes cut. -/
def mapResponse (fromUp : DNSReply) : Response :=
  { status := fromUp.rcode
    tc := fromUp.truncated
    rd := fromUp.recursionDesired
    ra := fromUp.recursionAvailable
    ad := fromUp.authenticatedData
    cd := fromUp.checkingDisabled
    question := fromUp.question.map (fun q =>
      { rname := q.qname, rrtype := q.qtype, ttl := 0, data := [] })
    answer := fromUp.answer.map (fun a =>
      { rname := a.hdrName, rrtype := a.hdrRrtype, ttl := a.hdrTtl,
        data := a.fullText.drop a.hdrText.length }) }

/-- The outcome of `dns.Exchange`: a Go error, or a possibly-nil reply. -/
inductive ExchangeOutcome where
  | failure (msg : String)
  | reply (m : Option DNSReply)

/-- The HTTP body written back: `http.Error` writes the message as a
text/plain body; success writes the marshalled JSON buffer. -/
inductive Body where
  | text (msg : String)
  | json (buf : List Char)
deriving DecidableEq, Repr

/-- HTTP status code and body as written by Resolve. -/
structure HTTPResponse where
  status : Nat
  body : Body
deriving DecidableEq, Repr

/-- The Resolve handler (lines 57-154) over the parsed query values, with
the upstream exchange and the JSON marshaller as capabilities (external
collaborators); the second component records, in order, every request
passed to the exchange capability. -/
def resolve (values : List (String × List String))
    (exchange : DNSRequest → ExchangeOutcome)
    (marshal : Response → Except String (List Char)) :
    HTTPResponse × List DNSRequest :=
  match parseQuery values with
  | .error e => (⟨400, .text (errMsg e)⟩, [])
  | .ok q =>
    let r := buildRequest q
    match exchange r with
    | .failure m => (⟨424, .text ("dns exchange error: " ++ m)⟩, [r])
    | .reply none => (⟨408, .text "no response from upstream"⟩, [r])
    | .reply (some fromUp) =>
      match marshal (mapResponse fromUp) with
      | .error m => (⟨500, .text ("failed to marshal: " ++ m)⟩, [r])
      | .ok buf => (⟨200, .json buf⟩, [r])

/-! ### Helper instances and lemmas -/

instance {ε α : Type} [DecidableEq ε] [DecidableEq α] : DecidableEq (Except ε α) := fun a b =>
  match a, b with
  | .ok x, .ok y =>
    if h : x = y then .isTrue (by rw [h])
    else .isFalse (fun hh => h (Except.ok.inj hh))
  | .error x, .error y =>
    if h : x = y then .isTrue (by rw [h])
    else .isFalse (fun hh => h (Except.error.inj hh))
  | .ok _, .error _ => .isFalse (fun hh => Except.noConfusion hh)
  | .error _, .ok _ => .isFalse (fun hh => Except.noConfusion hh)

/-- Masking a value twice with the same mask is the same as masking once. -/
theorem land_absorb (a b : Nat) : Nat.land (Nat.land a b) b = Nat.land a b := by
  show (a &&& b) &&& b = a &&& b
  rw [Nat.land_assoc, Nat.and_self]

/-- Masking twice with the same mask is the same as masking once. -/
theorem zipWith_land_idem (x m : List Nat) :
    List.zipWith Nat.land (List.zipWith Nat.land x m) m = List.zipWith Nat.land x m := by
  induction x generalizing m with
  | nil => simp
  | cons a xs ih =>
    cases m with
    | nil => simp
    | cons b ms => simp [List.zipWith, ih, land_absorb]

/-! ### Claim theorems -/

/-- C1: the specification says the EDNS0 client-subnet option carries the
CIDR prefix length as its source netmask (24 for 1.2.3.0/24, the prefix
length for an IPv6 subnet).  The code instead takes the second component
of `Mask.Size()` — the total bit count — so every IPv4 subnet is sent
with source netmask 32 and every IPv6 subnet with 128. -/
theorem C1_source_netmask_bit_count_bug :
    ((parseQuery [("name", ["example.com"]),
        ("edns_client_subnet", ["1.2.3.0/24"])]).toOption.map
      (fun q => (buildRequest q).extra.map
        (fun o => o.options.map (fun e => e.sourceNetmask)))) = some [[32]] ∧
    ((parseQuery [("name", ["example.com"]),
        ("edns_client_subnet", ["2001:db8::/32"])]).toOption.map
      (fun q => (buildRequest q).extra.map
        (fun o => o.options.map (fun e => e.sourceNetmask)))) = some [[128]] := by
  exact ⟨rfl, rfl⟩

/-- C2: the claim (and the function's own doc comment) says every numeric
string in [1, 65535] resolves to that code and 65536 yields IntOutOfRange.
The code parses with a 16-bit size, so every numeric string above 32767
fails the integer parse and falls through to the name table, yielding
UnknownType instead; 32767 and below behave as claimed. -/
theorem C2_numeric_type_range_bug :
    stringToRRType "32767" = .ok 32767 ∧
    stringToRRType "32768" = .error .unknownType ∧
    stringToRRType "65535" = .error .unknownType ∧
    stringToRRType "65536" = .error .unknownType ∧
    stringToRRType "0" = .error .intOutOfRange ∧
    stringToRRType "1" = .ok 1 := by
  exact ⟨rfl, rfl, rfl, rfl, rfl, rfl⟩

/-- C5: for every validated query with a client subnet present, exactly one
EDNS0 client-subnet option is attached (one OPT record holding one option);
its family is 1 when the parsed address has an IPv4 representation and 2
otherwise, and its source scope is always 0. -/
theorem C5_one_subnet_option (q : Query) (sn : IPNet) (h : q.clientSubnet = some sn) :
    ∃ e : EDNS0Subnet,
      (buildRequest q).extra = [⟨".", typeOPT, [e]⟩] ∧
      e.code = ednsSubnetCode ∧
      e.family = (if (ipTo4 sn.ip).isSome then 1 else 2) ∧
      e.sourceScope = 0 := by
  unfold buildRequest
  rw [h]
  cases hip : ipTo4 sn.ip with
  | none => exact ⟨_, rfl, rfl, by simp [hip], rfl⟩
  | some ip4 => exact ⟨_, rfl, rfl, by simp [hip], rfl⟩

/-- Witness for C5 at a concrete query carrying 1.2.3.0/24. -/
theorem C5_one_subnet_option_witness :
    ∃ e : EDNS0Subnet,
      (buildRequest ⟨"x", 1, false, some ⟨[1, 2, 3, 0], [255, 255, 255, 0]⟩⟩).extra
        = [⟨".", typeOPT, [e]⟩] ∧
      e.code = ednsSubnetCode ∧
      e.family = (if (ipTo4 (IPNet.mk [1, 2, 3, 0] [255, 255, 255, 0]).ip).isSome then 1 else 2) ∧
      e.sourceScope = 0 :=
  C5_one_subnet_option ⟨"x", 1, false, some ⟨[1, 2, 3, 0], [255, 255, 255, 0]⟩⟩
    ⟨[1, 2, 3, 0], [255, 255, 255, 0]⟩ rfl

/-- C8: the mapped response copies the reply code and the TC/RD/RA/AD/CD
flags verbatim, maps the question and answer sections in order, and each
answer's data is its full rendering with the header rendering cut off the
front (when, as the library guarantees, the full rendering extends the
header rendering). -/
theorem C8_response_mapping (fromUp : DNSReply) :
    (mapResponse fromUp).status = fromUp.rcode ∧
    (mapResponse fromUp).tc = fromUp.truncated ∧
    (mapResponse fromUp).rd = fromUp.recursionDesired ∧
    (mapResponse fromUp).ra = fromUp.recursionAvailable ∧
    (mapResponse fromUp).ad = fromUp.authenticatedData ∧
    (mapResponse fromUp).cd = fromUp.checkingDisabled ∧
    (mapResponse fromUp).question = fromUp.question.map (fun q =>
      { rname := q.qname, rrtype := q.qtype, ttl := 0, data := [] }) ∧
    (mapResponse fromUp).answer = fromUp.answer.map (fun a =>
      { rname := a.hdrName, rrtype := a.hdrRrtype, ttl := a.hdrTtl,
        data := a.fullText.drop a.hdrText.length }) ∧
    (∀ a ∈ fromUp.answer, ∀ rest, a.fullText = a.hdrText ++ rest →
      a.fullText.drop a.hdrText.length = rest) := by
  refine ⟨rfl, rfl, rfl, rfl, rfl, rfl, rfl, rfl, ?_⟩
  intro a _ rest hfull
  rw [hfull]
  exact List.drop_left _ _

/-- A concrete answer record with the library's rendering shape. -/
def answerStub : GoRR :=
  { hdrName := "example.com.", hdrRrtype := 1, hdrTtl := 300,
    hdrText := "example.com.\t300\tIN\tA\t".toList,
    fullText := "example.com.\t300\tIN\tA\t1.2.3.4".toList }

/-- A concrete upstream reply with one question and one answer. -/
def replyStub : DNSReply :=
  { rcode := 0, truncated := false, recursionDesired := true,
    recursionAvailable := true, authenticatedData := false,
    checkingDisabled := false,
    question := [⟨"example.com.", 1, 1⟩],
    answer := [answerStub] }

/-- Witness for C8 at a concrete reply. -/
theorem C8_response_mapping_witness :
    (mapResponse replyStub).status = replyStub.rcode ∧
    answerStub.fullText.drop answerStub.hdrText.length = "1.2.3.4".toList := by
  constructor
  · exact (C8_response_mapping replyStub).1
  · exact (C8_response_mapping replyStub).2.2.2.2.2.2.2.2 answerStub
      (by simp [replyStub]) "1.2.3.4".toList (by decide)

/-- C3: each failure kind maps to exactly the documented HTTP status —
validation failure 400, exchange error 424, nil reply 408, serialization
failure 500 — with the error message as a plain-text body (never JSON). -/
theorem C3_error_status_mapping (values : List (String × List String))
    (exchange : DNSRequest → ExchangeOutcome)
    (marshal : Response → Except String (List Char)) :
    (∀ e, parseQuery values = .error e →
      (resolve values exchange marshal).1 = ⟨400, .text (errMsg e)⟩) ∧
    (∀ q m, parseQuery values = .ok q → exchange (buildRequest q) = .failure m →
      (resolve values exchange marshal).1 = ⟨424, .text ("dns exchange error: " ++ m)⟩) ∧
    (∀ q, parseQuery values = .ok q → exchange (buildRequest q) = .reply none →
      (resolve values exchange marshal).1 = ⟨408, .text "no response from upstream"⟩) ∧
    (∀ q fromUp m, parseQuery values = .ok q →
      exchange (buildRequest q) = .reply (some fromUp) →
      marshal (mapResponse fromUp) = .error m →
      (resolve values exchange marshal).1 = ⟨500, .text ("failed to marshal: " ++ m)⟩) := by
  refine ⟨?_, ?_, ?_, ?_⟩
  · intro e h; simp [resolve, h]
  · intro q m h1 h2; simp [resolve, h1, h2]
  · intro q h1 h2; simp [resolve, h1, h2]
  · intro q fromUp m h1 h2 h3; simp [resolve, h1, h2, h3]

/-- An exchange capability that reports an error. -/
def exchangeFail : DNSRequest → ExchangeOutcome := fun _ => .failure "i/o timeout"

/-- An exchange capability that returns no reply and no error. -/
def exchangeNone : DNSRequest → ExchangeOutcome := fun _ => .reply none

/-- An exchange capability that returns the stub reply. -/
def exchangeReply : DNSRequest → ExchangeOutcome := fun _ => .reply (some replyStub)

/-- A marshaller that always fails. -/
def marshalFail : Response → Except String (List Char) := fun _ => .error "bad"

/-- A marshaller that always succeeds. -/
def marshalOk : Response → Except String (List Char) := fun _ => .ok []

/-- Witness for C3: all four failure mappings at concrete inputs. -/
theorem C3_error_status_mapping_witness :
    (resolve [] exchangeNone marshalOk).1 = ⟨400, .text "empty name"⟩ ∧
    (resolve [("name", ["example.com"])] exchangeFail marshalOk).1
      = ⟨424, .text "dns exchange error: i/o timeout"⟩ ∧
    (resolve [("name", ["example.com"])] exchangeNone marshalOk).1
      = ⟨408, .text "no response from upstream"⟩ ∧
    (resolve [("name", ["example.com"])] exchangeReply marshalFail).1
      = ⟨500, .text "failed to marshal: bad"⟩ := by
  refine ⟨?_, ?_, ?_, ?_⟩
  · exact (C3_error_status_mapping [] exchangeNone marshalOk).1 .emptyName rfl
  · exact (C3_error_status_mapping [("name", ["example.com"])] exchangeFail marshalOk).2.1
      ⟨"example.com", 1, false, none⟩ "i/o timeout" rfl rfl
  · exact (C3_error_status_mapping [("name", ["example.com"])] exchangeNone marshalOk).2.2.1
      ⟨"example.com", 1, false, none⟩ rfl rfl
  · exact (C3_error_status_mapping [("name", ["example.com"])] exchangeReply marshalFail).2.2.2
      ⟨"example.com", 1, false, none⟩ replyStub "bad" rfl rfl rfl

/-- C4: on any validation failure no upstream exchange call is made; on a
validated request exactly one exchange call is made, with no retries. -/
theorem C4_single_exchange (values : List (String × List String))
    (exchange : DNSRequest → ExchangeOutcome)
    (marshal : Response → Except String (List Char)) :
    (∀ e, parseQuery values = .error e → (resolve values exchange marshal).2 = []) ∧
    (∀ q, parseQuery values = .ok q →
      (resolve values exchange marshal).2 = [buildRequest q]) := by
  constructor
  · intro e h; simp [resolve, h]
  · intro q h
    simp only [resolve, h]
    cases hx : exchange (buildRequest q) with
    | failure m => rfl
    | reply r =>
      cases r with
      | none => rfl
      | some fromUp => cases hm : marshal (mapResponse fromUp) <;> simp [hm]

/-- Witness for C4: no call on an invalid query, one call on a valid one. -/
theorem C4_single_exchange_witness :
    (resolve [("name", [""])] exchangeNone marshalOk).2 = [] ∧
    (resolve [("name", ["example.com"])] exchangeNone marshalOk).2
      = [buildRequest ⟨"example.com", 1, false, none⟩] := by
  constructor
  · exact (C4_single_exchange [("name", [""])] exchangeNone marshalOk).1 .emptyName rfl
  · exact (C4_single_exchange [("name", ["example.com"])] exchangeNone marshalOk).2
      ⟨"example.com", 1, false, none⟩ rfl

/-- A key that appears on no pair of the values map is not found. -/
theorem getParam_eq_none (values : List (String × List String)) (k : String)
    (h : ∀ kv ∈ values, kv.1 ≠ k) : getParam values k = none := by
  unfold getParam
  have hf : ((values.map (fun kv => (kv.1, kv.2.headD ""))).find? (fun p => p.1 == k))
      = none := by
    rw [List.find?_eq_none]
    intro x hx
    simp only [List.mem_map] at hx
    obtain ⟨kv, hkv, rfl⟩ := hx
    simpa using h kv hkv
  rw [hf]
  rfl

/-- How a successful parse fixes the cd field: false when the key is
absent, the boolean resolution of its value when present. -/
theorem parseQuery_cd (values : List (String × List String)) (q : Query)
    (hq : parseQuery values = .ok q) :
    (getParam values "cd" = none → q.cd = false) ∧
    (∀ v, getParam values "cd" = some v → stringToBool v = .ok q.cd) := by
  constructor
  · intro hcd
    simp only [parseQuery, hcd] at hq
    repeat' split at hq
    all_goals try simp_all
    all_goals (subst hq; rfl)
  · intro v hcd
    simp only [parseQuery, hcd] at hq
    repeat' split at hq
    all_goals try simp_all
    all_goals (subst hq; rfl)

/-- C6: boolean resolution of cd is case-insensitive — a present key with
value folding to "", "1" or "true" gives true, "0" or "false" gives
false, anything else InvalidCheckingDisabled — and an absent cd key
defaults to false. -/
theorem C6_cd_resolution :
    (∀ s, (toLowerGo s = "" ∨ toLowerGo s = "1" ∨ toLowerGo s = "true") →
      stringToBool s = .ok true) ∧
    (∀ s, (toLowerGo s = "0" ∨ toLowerGo s = "false") → stringToBool s = .ok false) ∧
    (∀ s, toLowerGo s ≠ "" → toLowerGo s ≠ "1" → toLowerGo s ≠ "true" →
      toLowerGo s ≠ "0" → toLowerGo s ≠ "false" → stringToBool s = .error .invalidCD) ∧
    (∀ values q, (∀ kv ∈ values, kv.1 ≠ "cd") → parseQuery values = .ok q →
      q.cd = false) ∧
    (∀ values q v, getParam values "cd" = some v → parseQuery values = .ok q →
      stringToBool v = .ok q.cd) := by
  refine ⟨?_, ?_, ?_, ?_, ?_⟩
  · intro s h; simp [stringToBool, h]
  · intro s h
    have hne : ¬(toLowerGo s = "" ∨ toLowerGo s = "1" ∨ toLowerGo s = "true") := by
      rcases h with h | h <;> simp [h]
    simp [stringToBool, hne, h]
  · intro s h1 h2 h3 h4 h5
    simp [stringToBool, h1, h2, h3, h4, h5]
  · intro values q hall hq
    exact (parseQuery_cd values q hq).1 (getParam_eq_none values "cd" hall)
  · intro values q v hv hq
    exact (parseQuery_cd values q hq).2 v hv

/-- Witness for C6 at concrete inputs: "TRUE" (case folds to true), "0",
"banana", an absent cd key, and a present cd key. -/
theorem C6_cd_resolution_witness :
    stringToBool "TRUE" = .ok true ∧
    stringToBool "0" = .ok false ∧
    stringToBool "banana" = .error .invalidCD ∧
    (∀ q, parseQuery [("name", ["example.com"])] = .ok q → q.cd = false) ∧
    (parseQuery [("name", ["example.com"])] = .ok ⟨"example.com", 1, false, none⟩) ∧
    stringToBool "1" = .ok (⟨"example.com", 1, true, none⟩ : Query).cd := by
  refine ⟨?_, ?_, ?_, ?_, rfl, ?_⟩
  · exact C6_cd_resolution.1 "TRUE" (by decide)
  · exact C6_cd_resolution.2.1 "0" (by decide)
  · exact C6_cd_resolution.2.2.1 "banana" (by decide) (by decide) (by decide) (by decide)
      (by decide)
  · intro q hq
    exact C6_cd_resolution.2.2.2.1 [("name", ["example.com"])] q (by decide) hq
  · exact C6_cd_resolution.2.2.2.2 [("name", ["example.com"]), ("cd", ["1"])]
      ⟨"example.com", 1, true, none⟩ "1" rfl rfl

/-- The 253-character test name. -/
def name253 : String := String.mk (List.replicate 253 'a')

/-- The 254-character test name. -/
def name254 : String := String.mk (List.replicate 254 'a')

/-- C7: a missing or empty name fails with EmptyName, a name longer than
253 characters fails with NameTooLong, and a 253-character name passes
name validation. -/
theorem C7_name_validation (values : List (String × List String)) :
    (getParam values "name" = none → parseQuery values = .error .emptyName) ∧
    (getParam values "name" = some "" → parseQuery values = .error .emptyName) ∧
    (∀ n, getParam values "name" = some n → 253 < n.length →
      parseQuery values = .error .nameTooLong) ∧
    parseQuery [("name", [name253])] = .ok ⟨name253, 1, false, none⟩ := by
  refine ⟨?_, ?_, ?_, ?_⟩
  · intro h; simp [parseQuery, h]
  · intro h; simp [parseQuery, h]
  · intro n h hlen
    have hne : n ≠ "" := by
      intro he
      rw [he] at hlen
      exact absurd hlen (by decide)
    simp [parseQuery, h, hne, hlen]
  · rfl

/-- Witness for C7: missing name, empty name, and a 254-character name at
concrete inputs. -/
theorem C7_name_validation_witness :
    parseQuery [("x", ["y"])] = .error .emptyName ∧
    parseQuery [("name", [""])] = .error .emptyName ∧
    parseQuery [("name", [name254])] = .error .nameTooLong := by
  refine ⟨?_, ?_, ?_⟩
  · exact (C7_name_validation [("x", ["y"])]).1 rfl
  · exact (C7_name_validation [("name", [""])]).2.1 rfl
  · exact (C7_name_validation [("name", [name254])]).2.2.1 name254 rfl (by decide)

/-- Unfolding of valuesFor on a cons cell. -/
theorem valuesFor_cons (p : String × String) (rest : List (String × String)) (k : String) :
    valuesFor (p :: rest) k
      = if p.1 == k then p.2 :: valuesFor rest k else valuesFor rest k := by
  by_cases h : p.1 = k
  · simp [valuesFor, List.filter_cons, h]
  · simp [valuesFor, List.filter_cons, h]

/-- The first value under a key is the value of the first pair carrying
that key. -/
theorem head?_valuesFor (pairs : List (String × String)) (k : String) :
    (valuesFor pairs k).head? = (pairs.find? (fun p => p.1 == k)).map (fun p => p.2) := by
  induction pairs with
  | nil => rfl
  | cons p rest ih =>
    rw [valuesFor_cons]
    by_cases h : p.1 = k
    · have hb : (p.1 == k) = true := by simpa using h
      simp [List.find?_cons, hb]
    · have hb : (p.1 == k) = false := by simpa using h
      simp [List.find?_cons, hb, ih]

/-- Membership in the deduplicated key list relative to the seen set. -/
theorem mem_dedupKeysFirstAux (l : List String) (seen : List String) (k : String) :
    k ∈ dedupKeysFirstAux seen l ↔ (k ∈ l ∧ k ∉ seen) := by
  induction l generalizing seen with
  | nil => simp [dedupKeysFirstAux]
  | cons x xs ih =>
    simp only [dedupKeysFirstAux]
    by_cases hx : x ∈ seen
    · rw [if_pos hx, ih]
      constructor
      · rintro ⟨h1, h2⟩
        exact ⟨List.mem_cons_of_mem _ h1, h2⟩
      · rintro ⟨h1, h2⟩
        rcases List.mem_cons.mp h1 with rfl | h1
        · exact absurd hx h2
        · exact ⟨h1, h2⟩
    · rw [if_neg hx]
      by_cases hk : k = x
      · subst hk
        simp [ih, hx]
      · simp only [List.mem_cons, hk, false_or, ih]

/-- Deduplication does not change key membership. -/
theorem mem_dedupKeysFirst (l : List String) (k : String) :
    k ∈ dedupKeysFirst l ↔ k ∈ l := by
  rw [dedupKeysFirst, mem_dedupKeysFirstAux]
  simp

/-- Finding by equality returns the key itself exactly when present. -/
theorem find?_beq_self (l : List String) (k : String) :
    l.find? (fun x => x == k) = if k ∈ l then some k else none := by
  induction l with
  | nil => rfl
  | cons x xs ih =>
    by_cases h : x = k
    · subst h
      simp [List.find?_cons]
    · have hb : (x == k) = false := by simpa using h
      simp only [List.find?_cons, hb, ih]
      by_cases hm : k ∈ xs
      · simp [hm, List.mem_cons, Ne.symm h]
      · simp [hm, List.mem_cons, Ne.symm h]

/-- A key occurring in the pairs owns at least one value. -/
theorem valuesFor_ne_nil (pairs : List (String × String)) (k : String)
    (hk : k ∈ pairs.map (fun p => p.1)) : valuesFor pairs k ≠ [] := by
  simp only [List.mem_map] at hk
  obtain ⟨p, hp, hpk⟩ := hk
  have hmem : p.2 ∈ valuesFor pairs k := by
    simp only [valuesFor, List.mem_map]
    exact ⟨p, List.mem_filter.mpr ⟨hp, by simp [hpk]⟩, rfl⟩
  intro he
  rw [he] at hmem
  exact absurd hmem (List.not_mem_nil _)

/-- Looking a key up through the grouped url.Values map yields exactly the
first value of that key in the raw query, and nothing when absent. -/
theorem getParam_urlQueryValues (pairs : List (String × String)) (k : String) :
    getParam (urlQueryValues pairs) k
      = (pairs.find? (fun p => p.1 == k)).map (fun p => p.2) := by
  unfold getParam urlQueryValues
  rw [List.map_map, List.find?_map]
  have hpred : ((fun p : String × String => p.1 == k) ∘
      ((fun kv : String × List String => (kv.1, kv.2.headD "")) ∘
       (fun k2 => (k2, valuesFor pairs k2)))) = fun k2 => k2 == k := rfl
  rw [hpred, find?_beq_self]
  by_cases hk : k ∈ pairs.map (fun p => p.1)
  · rw [if_pos ((mem_dedupKeysFirst _ _).mpr hk)]
    show some ((valuesFor pairs k).headD "")
      = Option.map (fun p => p.2) (pairs.find? (fun p => p.1 == k))
    rw [← head?_valuesFor]
    obtain ⟨v, vs, hvv⟩ := List.exists_cons_of_ne_nil (valuesFor_ne_nil pairs k hk)
    rw [hvv]
    rfl
  · rw [if_neg (fun hmem => hk ((mem_dedupKeysFirst _ _).mp hmem))]
    have hnone : pairs.find? (fun p => p.1 == k) = none := by
      rw [List.find?_eq_none]
      intro p hp
      simp only [beq_iff_eq]
      exact fun hpk => hk (List.mem_map.mpr ⟨p, hp, hpk⟩)
    rw [hnone]
    rfl

/-- C9: for a repeated query key only the first value is used (every
parameter lookup sees exactly the first value carried by the raw query),
a key present with an empty value list counts as present with the empty
string, and a request with a duplicated name key parses using the first
name only. -/
theorem C9_repeated_keys (pairs : List (String × String)) (k : String) :
    (getParam (urlQueryValues pairs) k
      = (pairs.find? (fun p => p.1 == k)).map (fun p => p.2)) ∧
    (∀ values, getParam ((k, ([] : List String)) :: values) k = some "") ∧
    (parseQuery (urlQueryValues [("name", "first.example"), ("name", "second.example")])
      = .ok ⟨"first.example", 1, false, none⟩) := by
  refine ⟨getParam_urlQueryValues pairs k, ?_, rfl⟩
  intro values
  simp [getParam]

/-- Witness for C9 at a concrete repeated key and an empty value list. -/
theorem C9_repeated_keys_witness :
    (getParam (urlQueryValues [("a", "1"), ("a", "2")]) "a"
      = (([("a", "1"), ("a", "2")] : List (String × String)).find?
          (fun p => p.1 == "a")).map (fun p => p.2)) ∧
    getParam [("cd", ([] : List String))] "cd" = some "" := by
  constructor
  · exact (C9_repeated_keys [("a", "1"), ("a", "2")] "a").1
  · exact (C9_repeated_keys [] "cd").2.1 []

/-- The remaining octets parsed are exactly the count requested. -/
theorem parseV4Rest_length (k : Nat) : ∀ (s : List Char) (r : List Nat),
    parseV4Rest k s = some r → r.length = k := by
  induction k with
  | zero =>
    intro s r h
    unfold parseV4Rest at h
    split at h
    · cases h
      rfl
    · cases h
  | succ n ih =>
    intro s r h
    unfold parseV4Rest at h
    split at h
    · rename_i s2
      split at h
      · cases h
      · rename_i v s3 heq
        cases hr : parseV4Rest n s3 with
        | none => rw [hr] at h; cases h
        | some r2 =>
          rw [hr] at h
          cases h
          simp [ih s3 r2 hr]
    · cases h

/-- A parsed IPv4 address occupies 16 bytes (the IPv4-in-IPv6 form). -/
theorem parseIPv4Go_length (s : List Char) (ip : List Nat)
    (h : parseIPv4Go s = some ip) : ip.length = 16 := by
  unfold parseIPv4Go at h
  split at h
  · cases h
  · rename_i v s2 heq
    cases hr : parseV4Rest 3 s2 with
    | none => rw [hr] at h; cases h
    | some r =>
      rw [hr] at h
      cases h
      simp [v4InV6Head, parseV4Rest_length 3 s2 r hr]



/-- Under the loop invariants the finish step yields 16 address bytes. -/
theorem parseIPv6Finish_length (s : List Char) (i : Nat) (acc : List Nat)
    (ellipsis : Option Nat) (ip : List Nat)
    (hacc : acc.length = i) (hell : ∀ e, ellipsis = some e → e ≤ i) (hi : i ≤ 16)
    (h : parseIPv6Finish s i acc ellipsis = some ip) : ip.length = 16 := by
  cases ellipsis with
  | none =>
    simp only [parseIPv6Finish] at h
    split at h
    · cases h
    · split at h
      · cases h
      · cases h
        omega
  | some e =>
    have he := hell e rfl
    simp only [parseIPv6Finish] at h
    split at h
    · cases h
    · split at h
      · cases h
        simp only [List.length_append, List.length_take, List.length_drop,
          List.length_replicate]
        omega
      · cases h



/-- The IPv6 parse loop preserves its invariants and yields 16 bytes. -/
theorem parseIPv6Loop_length (fuel : Nat) : ∀ (s : List Char) (i : Nat) (acc : List Nat)
    (ellipsis : Option Nat) (ip : List Nat), acc.length = i →
    (∀ e, ellipsis = some e → e ≤ i) → i ≤ 16 → i % 2 = 0 →
    parseIPv6Loop fuel s i acc ellipsis = some ip → ip.length = 16 := by
  induction fuel with
  | zero =>
    intro s i acc ellipsis ip _ _ _ _ h
    cases h
  | succ n ih =>
    intro s i acc ellipsis ip hacc hell hi hev h
    simp only [parseIPv6Loop] at h
    split at h
    · exact parseIPv6Finish_length _ _ _ _ _ hacc hell hi h
    · split at h
      · cases h
      · split at h
        · -- dot branch
          split at h
          · cases h
          · split at h
            · cases h
            · cases hp4 : parseIPv4Go s with
              | none =>
                simp only [hp4] at h
                cases h
              | some ip4 =>
                simp only [hp4] at h
                refine parseIPv6Finish_length _ _ _ _ _ ?_ ?_ ?_ h
                · simp [hacc, parseIPv4Go_length _ _ hp4]
                · intro e he
                  exact Nat.le_trans (hell e he) (by omega)
                · omega
        · -- hex group branch
          split at h
          · -- rest = []
            refine parseIPv6Finish_length _ _ _ _ _ ?_ ?_ ?_ h
            · simp [hacc]
            · intro e he
              exact Nat.le_trans (hell e he) (by omega)
            · omega
          · -- rest = [chr 58]
            cases h
          · -- rest starts with two colons
            split at h
            · cases h
            · split at h
              · refine parseIPv6Finish_length _ _ _ _ _ ?_ ?_ ?_ h
                · simp [hacc]
                · intro e he
                  injection he with h2
                  omega
                · omega
              · refine ih _ _ _ _ _ ?_ ?_ ?_ ?_ h
                · simp [hacc]
                · intro e he
                  injection he with h2
                  omega
                · omega
                · omega
          · -- rest is colon then more
            refine ih _ _ _ _ _ ?_ ?_ ?_ ?_ h
            · simp [hacc]
            · intro e he
              exact Nat.le_trans (hell e he) (by omega)
            · omega
            · omega
          · -- anything else
            cases h



/-- A parsed IPv6 address occupies 16 bytes. -/
theorem parseIPv6Go_length (s : List Char) (ip : List Nat)
    (h : parseIPv6Go s = some ip) : ip.length = 16 := by
  unfold parseIPv6Go at h
  split at h
  · rename_i rest
    split at h
    · cases h
      simp
    · refine parseIPv6Loop_length (rest.length + 1) rest 0 [] (some 0) ip rfl
        ?_ (by omega) rfl h
      intro e he
      injection he with h2
      omega
  · exact parseIPv6Loop_length (s.length + 1) s 0 [] none ip rfl
      (fun e he => by cases he) (by omega) rfl h

/-- A parsed IPv6 address with zone occupies 16 bytes. -/
theorem parseIPv6ZoneGo_length (s : List Char) (ip : List Nat)
    (h : parseIPv6ZoneGo s = some ip) : ip.length = 16 :=
  parseIPv6Go_length _ _ h

/-- A CIDR mask has one byte per eight bits. -/
theorem cidrMask_length (o b : Nat) : (cidrMask o b).length = b / 8 := by
  simp [cidrMask]

/-- Outside the 16-byte-mask-on-4-byte-address case, the address stored
by IP.Mask is unchanged by masking again with the same mask. -/
theorem ipMask_land_idem (ip m network : List Nat)
    (hno : ¬(m.length = 16 ∧ ip.length = 4 ∧ (m.take 12).all (fun b => b == 255) = true))
    (h : ipMask ip m = some network) :
    List.zipWith Nat.land network m = network := by
  simp only [ipMask] at h
  rw [if_neg hno] at h
  split at h
  · split at h
    · cases h
      exact zipWith_land_idem _ _
    · cases h
  · split at h
    · cases h
      exact zipWith_land_idem _ _
    · cases h

/-- The network address stored by the ParseCIDR tail has its host bits
zeroed: masking it again with the stored mask is the identity. -/
theorem parseCIDRFinish_host_bits (ip : List Nat) (iplen : Nat) (maskStr : List Char)
    (ipnet : IPNet) (hside : iplen = 4 ∨ ip.length = 16)
    (h : parseCIDRFinish ip iplen maskStr = some ipnet) :
    List.zipWith Nat.land ipnet.ip ipnet.mask = ipnet.ip := by
  simp only [parseCIDRFinish] at h
  split at h
  · cases h
  · split at h
    · cases h
    · rename_i network heq
      cases h
      refine ipMask_land_idem ip _ network ?_ heq
      rintro ⟨hm16, hip4, _⟩
      rw [cidrMask_length] at hm16
      rcases hside with h4 | h16
      · omega
      · omega

/-- The address stored by ParseCIDR has its host bits zeroed by the mask. -/
theorem parseCIDR_host_bits (s : String) (ipnet : IPNet)
    (h : parseCIDR s = some ipnet) :
    List.zipWith Nat.land ipnet.ip ipnet.mask = ipnet.ip := by
  simp only [parseCIDR] at h
  split at h
  · split at h
    · exact parseCIDRFinish_host_bits _ _ _ _ (Or.inl rfl) h
    · split at h
      · rename_i ip6 heq6
        exact parseCIDRFinish_host_bits _ _ _ _
          (Or.inr (parseIPv6ZoneGo_length _ _ heq6)) h
      · cases h
  · cases h

/-- C10: the address placed in the EDNS0 client-subnet option is the
network address of the parsed CIDR with host bits zeroed by the mask, not
the literal address of the query: masking the stored address again is the
identity, the option carries exactly that stored address (in 4-byte form
when it has one), and 1.2.3.4/24 parses to network address 1.2.3.0. -/
theorem C10_network_address (s : String) (ipnet : IPNet)
    (h : parseCIDR s = some ipnet) :
    List.zipWith Nat.land ipnet.ip ipnet.mask = ipnet.ip ∧
    (∀ q, q.clientSubnet = some ipnet →
      (buildRequest q).extra.map (fun o => o.options.map (fun e => e.address))
        = [[(ipTo4 ipnet.ip).getD ipnet.ip]]) ∧
    parseCIDR "1.2.3.4/24" = some ⟨[1, 2, 3, 0], [255, 255, 255, 0]⟩ := by
  refine ⟨parseCIDR_host_bits s ipnet h, ?_, rfl⟩
  intro q hq
  unfold buildRequest
  rw [hq]
  cases hip : ipTo4 ipnet.ip <;> simp [hip]

/-- Witness for C10 at the subnet 1.2.3.4/24. -/
theorem C10_network_address_witness :
    List.zipWith Nat.land (IPNet.mk [1, 2, 3, 0] [255, 255, 255, 0]).ip
        (IPNet.mk [1, 2, 3, 0] [255, 255, 255, 0]).mask
      = (IPNet.mk [1, 2, 3, 0] [255, 255, 255, 0]).ip ∧
    (buildRequest ⟨"x", 1, false, some ⟨[1, 2, 3, 0], [255, 255, 255, 0]⟩⟩).extra.map
        (fun o => o.options.map (fun e => e.address))
      = [[(ipTo4 (IPNet.mk [1, 2, 3, 0] [255, 255, 255, 0]).ip).getD
            (IPNet.mk [1, 2, 3, 0] [255, 255, 255, 0]).ip]] :=
  let h := C10_network_address "1.2.3.4/24" ⟨[1, 2, 3, 0], [255, 255, 255, 0]⟩ rfl
  ⟨h.1, h.2.1 ⟨"x", 1, false, some ⟨[1, 2, 3, 0], [255, 255, 255, 0]⟩⟩ rfl⟩

end Dnss
